import Mathlib

/-!
Verification of the schedule-bucketing routine and rendering guards of the
blaseball-reference.com front end.

The central object is `TeamSchedule.seasonScheduleByDate`: a linear scan over
an ordered season game list that reconstructs wall-clock timestamps from
era-dependent calendar rules and groups the games into day-of-month buckets,
each holding hour-of-day buckets.

Modelling conventions:
* Timestamps are whole hours since the Unix epoch (`Nat`); the source only
  ever reads and writes the hour and the calendar day of a JS `Date`, and the
  local timezone is taken to be UTC, so `getHours` is `t % 24`,
  `setHours (getHours + n)` is `t + n`, `setDate (getDate + 1)` adds `24`,
  and `setUTCHours h` is `(t / 24) * 24 + h`.
* `getDate` (the day of month) is the civil-calendar conversion of `t / 24`
  days since 1970-01-01.
* JS objects keyed by hour are association lists in insertion order; a spread
  that adds a fresh key appends it, matching JS key insertion order.
* A JS `undefined`/`null` input is `Option.none`; truthiness of `gameStart`
  is a `Bool` field.
-/

set_option maxHeartbeats 1000000

namespace BlaseballRef

/-- The fields of a game record that the schedule view reads
(`types/game` as used by `TeamSchedule`). -/
structure Game where
  id : String
  day : Nat
  season : Nat
  seriesIndex : Nat
  gameStart : Bool
  gameComplete : Bool
  homeTeam : String
  awayTeam : String
  homeScore : Int
  awayScore : Int
  weather : Nat
  deriving DecidableEq, Repr

/-- A chronicler schedule entry; the scan only reads its `data` field. -/
structure ChroniclerGame where
  data : Game
  deriving DecidableEq, Repr

/-- A game as stored in the output buckets: the input game spread into a new
object together with the single extra field `visibleOnSite`
(`{ ...game, visibleOnSite }`). -/
structure GameVis where
  game : Game
  visibleOnSite : Bool
  deriving DecidableEq, Repr

/-- `gamesByHourOfDay`: a JS object keyed by hour of day, modelled as an
association list in key-insertion order. -/
abbrev HourBuckets := List (Nat × List GameVis)

/-- One day bucket of the output (`types/dailySchedule`). `startingDate` is
the snapshot `new Date(currGameDate)` taken when the bucket is created,
as an hours-since-epoch timestamp. -/
structure DailySchedule where
  dayOfMonth : Nat
  startingDate : Nat
  gamesByHourOfDay : HourBuckets
  deriving DecidableEq, Repr

/-- Day of month of day number `z` (days since 1970-01-01), by the standard
civil-from-days conversion; this is JS `Date.prototype.getDate` for a UTC
timestamp in a UTC locale. -/
def civilDayOfMonth (z : Nat) : Nat :=
  let zs := z + 719468
  let doe := zs % 146097
  let yoe := (doe - doe / 1460 + doe / 36524 - doe / 146096) / 365
  let doy := doe - (365 * yoe + yoe / 4 - yoe / 100)
  let mp := (5 * doy + 2) / 153
  doy - (153 * mp + 2) / 5 + 1

/-- The clock-advancement rules of `seasonScheduleByDate` (source lines
148-224): given the selected season, the running timestamp `currGameDate`,
the previous game's day (`prevGame?.day`, `none` before the first game), and
the postseason flags, compute the updated
`(currGameDate, postseasonHasStarted, postseasonRound)` for one game. -/
def advanceClock (selectedSeason : Nat) (currGameDate : Nat)
    (prevDay : Option Nat) (postseasonHasStarted : Bool)
    (postseasonRound : Nat) (game : Game) : Nat × Bool × Nat :=
  let isNewGameDay := prevDay ≠ some game.day
  if isNewGameDay ∧ 0 < game.day ∧ game.day < 99 then
    -- Add an hour for earlsiesta and latesiesta
    let advanceHourBy :=
      if 11 ≤ selectedSeason ∧ (game.day = 27 ∨ game.day = 72) then 2 else 1
    (currGameDate + advanceHourBy, postseasonHasStarted, postseasonRound)
  else if isNewGameDay ∧ 99 ≤ game.day then
    if postseasonHasStarted = false then
      if game.season < 8 then
        -- advance day of month and set hour to 13 UTC
        ((currGameDate / 24 + 1) * 24 + 13, true, postseasonRound + 1)
      else if 8 ≤ game.season then
        -- a team that bypassed round 1 starts at a later hour
        if 99 < game.day then
          (currGameDate + 2 + (game.day - 99), true, postseasonRound + 2)
        else
          (currGameDate + 2, true, postseasonRound + 1)
      else
        (currGameDate, true, postseasonRound + 1)
    else
      if game.season < 8 then
        (currGameDate + 1, postseasonHasStarted, postseasonRound)
      else if 8 ≤ game.season ∧ game.season < 11 then
        -- advance to next day on start of round 2
        if postseasonRound = 1 ∧ game.seriesIndex = 1 then
          ((currGameDate / 24 + 1) * 24 + 15, postseasonHasStarted,
            postseasonRound + 1)
        else
          (currGameDate + 1, postseasonHasStarted, postseasonRound)
      else if 11 ≤ game.season then
        let newRound :=
          if game.seriesIndex = 1 then postseasonRound + 1 else postseasonRound
        -- find the start of the third round, and advance to Saturday
        if game.seriesIndex = 1 ∧ newRound = 3 then
          -- exception for season 13 (0-indexed 12), which started an hour early
          if game.season = 12 then
            ((currGameDate / 24 + 1) * 24 + 14, postseasonHasStarted, newRound)
          else
            ((currGameDate / 24 + 1) * 24 + 15, postseasonHasStarted, newRound)
        else
          (currGameDate + 1, postseasonHasStarted, newRound)
      else
        (currGameDate, postseasonHasStarted, postseasonRound)
  else
    (currGameDate, postseasonHasStarted, postseasonRound)

/-- Whether the hour-of-day object already owns key `h`
(`Object.prototype.hasOwnProperty.call`). -/
def hasHourKey : HourBuckets → Nat → Bool
  | [], _ => false
  | (k, _) :: rest, h => k = h || hasHourKey rest h

/-- Push a game onto the list stored at an existing hour key
(`gamesByHourOfDay[currHourOfDay].push(...)`): the first entry with key `h`
gets the game appended. -/
def appendToHour (hours : HourBuckets) (h : Nat) (gv : GameVis) : HourBuckets :=
  match hours with
  | [] => []
  | (k, l) :: rest =>
    if k = h then (k, l ++ [gv]) :: rest
    else (k, l) :: appendToHour rest h gv

/-- The bucketing step of the scan (source lines 226-262): find the first day
bucket whose `dayOfMonth` matches, create one at the end if none exists,
otherwise add the game under the current hour key (creating the hour key at
the end if new, appending to its list otherwise). -/
def insertGame (gamesByDay : List DailySchedule) (currDayOfMonth : Nat)
    (currHourOfDay : Nat) (currGameDate : Nat) (gv : GameVis) :
    List DailySchedule :=
  match gamesByDay with
  | [] =>
    [{ dayOfMonth := currDayOfMonth, startingDate := currGameDate,
       gamesByHourOfDay := [(currHourOfDay, [gv])] }]
  | b :: rest =>
    if b.dayOfMonth = currDayOfMonth then
      if hasHourKey b.gamesByHourOfDay currHourOfDay then
        { b with gamesByHourOfDay :=
            appendToHour b.gamesByHourOfDay currHourOfDay gv } :: rest
      else
        { b with gamesByHourOfDay :=
            b.gamesByHourOfDay ++ [(currHourOfDay, [gv])] } :: rest
    else
      b :: insertGame rest currDayOfMonth currHourOfDay currGameDate gv

/-- The mutable state of the scan over the game list. -/
structure ScanState where
  currGameDate : Nat
  prevGame : Option GameVis
  previousGameHasStarted : Bool
  postseasonHasStarted : Bool
  postseasonRound : Nat
  gamesByDay : List DailySchedule

/-- One iteration of the `for (const { data: game } of schedule)` loop. -/
def processGame (selectedSeason : Nat) (st : ScanState) (game : Game) :
    ScanState :=
  let acr :=
    advanceClock selectedSeason st.currGameDate
      (st.prevGame.map fun p => p.game.day) st.postseasonHasStarted
      st.postseasonRound game
  let t := acr.1
  let started := acr.2.1
  let round := acr.2.2
  let currDayOfMonth := civilDayOfMonth (t / 24)
  let currHourOfDay := t % 24
  let visibleOnSite := st.previousGameHasStarted || game.gameStart
  let gameWithVisibilityStatus : GameVis :=
    { game := game, visibleOnSite := visibleOnSite }
  { currGameDate := t
    prevGame := some gameWithVisibilityStatus
    previousGameHasStarted := game.gameStart
    postseasonHasStarted := started
    postseasonRound := round
    gamesByDay :=
      insertGame st.gamesByDay currDayOfMonth currHourOfDay t
        gameWithVisibilityStatus }

/-- The scan's initial state: the clock starts at the season start date and
every flag is cleared. -/
def initState (seasonStartDate : Nat) : ScanState :=
  { currGameDate := seasonStartDate
    prevGame := none
    previousGameHasStarted := false
    postseasonHasStarted := false
    postseasonRound := 0
    gamesByDay := [] }

/-- `TeamSchedule.seasonScheduleByDate` on non-null inputs: scan the ordered
game list and return the day buckets. `seasonStartDate` is the parsed
`seasonStartDates[selectedSeason]` timestamp in hours since the epoch. -/
def seasonScheduleByDate (selectedSeason : Nat) (seasonStartDate : Nat)
    (schedule : List ChroniclerGame) : List DailySchedule :=
  (schedule.foldl (fun st cg => processGame selectedSeason st cg.data)
    (initState seasonStartDate)).gamesByDay

/-- The `React.useMemo` guard around the scan (source lines 128-136): while
the schedule is validating, or when `schedule`, `selectedSeason` or
`seasonStartDates` is null, no result is produced. `seasonStartDates` maps a
season to its parsed start timestamp in hours since the epoch. -/
def seasonScheduleByDateMemo (scheduleIsValidating : Bool)
    (schedule : Option (List ChroniclerGame)) (selectedSeason : Option Nat)
    (seasonStartDates : Option (Nat → Nat)) : Option (List DailySchedule) :=
  if scheduleIsValidating then none
  else
    match schedule, selectedSeason, seasonStartDates with
    | some sch, some sel, some starts =>
      some (seasonScheduleByDate sel (starts sel) sch)
    | _, _, _ => none

/-- The `types/team` fields read by the schedule page and static paths. -/
structure Team where
  team_id : String
  url_slug : String
  nickname : String
  full_name : String
  deriving DecidableEq, Repr

/-- What the `TeamSchedule` component renders. -/
inductive ScheduleRender where
  | loadingSkeleton
  | scheduleView (dailySchedule : List DailySchedule)
  deriving DecidableEq, Repr

/-- The `TeamSchedule` render guard (source lines 270-277): while validating,
or when the memo produced nothing or `team` or `teams` is null, render the
loading skeleton; otherwise render the daily schedule. -/
def teamScheduleRender (scheduleIsValidating : Bool)
    (schedule : Option (List ChroniclerGame)) (selectedSeason : Option Nat)
    (seasonStartDates : Option (Nat → Nat)) (team : Option Team)
    (teams : Option (List Team)) : ScheduleRender :=
  if scheduleIsValidating then .loadingSkeleton
  else
    match seasonScheduleByDateMemo scheduleIsValidating schedule selectedSeason
        seasonStartDates, team, teams with
    | some s, some _, some _ => .scheduleView s
    | _, _, _ => .loadingSkeleton

/-- One Algolia search hit as rendered (`objectID`, `anchor`, `title`). -/
structure SearchResult where
  objectID : String
  anchor : String
  title : String
  deriving DecidableEq, Repr

/-- The search results object: a JS object that may or may not own the
`players` and `teams` keys. -/
structure SearchResultsData where
  players : Option (List SearchResult)
  teams : Option (List SearchResult)
  deriving DecidableEq, Repr

/-- `Object.keys(searchResults)`: the list of keys the object owns. -/
def SearchResultsData.keys (r : SearchResultsData) : List String :=
  (if r.players.isSome then ["players"] else []) ++
    (if r.teams.isSome then ["teams"] else [])

/-- What the `SearchResults` component renders. -/
inductive SearchRender where
  | pleaseRefresh
  | loadingMessage
  | noResultsFound
  | resultGroups (groups : List (String × List SearchResult))
  deriving DecidableEq, Repr

/-- `SearchResults` (search.tsx lines 73-116): the error placeholder first,
then the loading message, then the empty-object message, then the grouped
result lists. -/
def searchResultsRender (isError : Bool) (isLoading : Bool)
    (searchResults : SearchResultsData) : SearchRender :=
  if isError then .pleaseRefresh
  else if isLoading then .loadingMessage
  else if searchResults.keys.length = 0 then .noResultsFound
  else
    .resultGroups
      ((match searchResults.players with
        | some l => [("players", l)]
        | none => []) ++
        (match searchResults.teams with
        | some l => [("teams", l)]
        | none => []))

/-- A per-season stat line (`types/statSplit`), reduced to the fields the
batting table body reads. -/
structure StatSplit where
  season : Nat
  teamFullName : String
  deriving DecidableEq, Repr

/-- What the `TeamBattingStatTable` renders below its heading. -/
inductive StatTableBody where
  | tableContent (rows : List StatSplit)
  | noResultsMessage
  deriving DecidableEq, Repr

/-- `TeamBattingStatTable` body (lines 73-77): render table content only when
`data` is an array with at least one split, the no-results message
otherwise. -/
def teamBattingStatTableBody (splits : Option (List StatSplit)) :
    StatTableBody :=
  match splits with
  | some rows =>
    if 0 < rows.length then .tableContent rows else .noResultsMessage
  | none => .noResultsMessage

/-- `getStaticPaths` of the team schedule page: one path per team from the
teams API, `/teams/{url_slug}/schedule`. -/
def getStaticPathsTeamSchedule (teams : List Team) : List String :=
  teams.map fun team => "/teams/" ++ team.url_slug ++ "/schedule"

/-- The schedule data fetch path built from the route's `teamSlug`. -/
def scheduleFetchPath (teamSlug : String) : String :=
  "/teams/" ++ teamSlug ++ "/schedule.json"

/-- The team data fetch path built from the route's `teamSlug`. -/
def teamFetchPath (teamSlug : String) : String :=
  "/teams/" ++ teamSlug

/-- All games stored under a day bucket's hour keys, in key order. -/
def hourJoin (hours : HourBuckets) : List GameVis :=
  (hours.map Prod.snd).flatten

/-- All games stored in a bucket list, day by day and hour by hour. -/
def allGames (gamesByDay : List DailySchedule) : List GameVis :=
  (gamesByDay.map fun b => hourJoin b.gamesByHourOfDay).flatten

/-- The number of game slots occupied across all buckets. -/
def totalGames (gamesByDay : List DailySchedule) : Nat :=
  (allGames gamesByDay).length

/-- The first day bucket with the given day of month (`gamesByDay.find`). -/
def findBucket : List DailySchedule → Nat → Option DailySchedule
  | [], _ => none
  | b :: rest, d => if b.dayOfMonth = d then some b else findBucket rest d

/-- The list stored under hour key `h`, or `[]` when the key is absent. -/
def lookupHour : HourBuckets → Nat → List GameVis
  | [], _ => []
  | (k, l) :: rest, h => if k = h then l else lookupHour rest h

/-- The games filed under day-of-month `d` and hour `h`. -/
def gamesAt (gamesByDay : List DailySchedule) (d h : Nat) : List GameVis :=
  match findBucket gamesByDay d with
  | some b => lookupHour b.gamesByHourOfDay h
  | none => []

/-- The visibility thread of the scan (source lines 142-143, 233-235) in
isolation: each game is annotated with
`previousGameHasStarted || game.gameStart`, and the flag threads on as
`Boolean(game.gameStart)`. -/
def visAnnotate (previousGameHasStarted : Bool) : List Game → List GameVis
  | [] => []
  | game :: rest =>
    { game := game,
      visibleOnSite := previousGameHasStarted || game.gameStart }
      :: visAnnotate game.gameStart rest

/-- A concrete postseason game of (0-indexed) season 12, used to exhibit the
season-13 start-hour exception. -/
def exGame12 : Game :=
  { id := "g12", day := 105, season := 12, seriesIndex := 1,
    gameStart := true, gameComplete := false, homeTeam := "h",
    awayTeam := "a", homeScore := 0, awayScore := 0, weather := 0 }

/-- The same postseason game with season 13 instead. -/
def exGame13 : Game :=
  { exGame12 with id := "g13", season := 13 }

/-! ### Helper lemmas about the hour buckets -/

lemma lookupHour_nil_of_not_hasHourKey (hours : HourBuckets) (h : Nat)
    (hk : hasHourKey hours h = false) :
    lookupHour hours h = [] := by
  induction hours with
  | nil => rfl
  | cons e rest ih =>
    obtain ⟨k, l⟩ := e
    simp only [hasHourKey, Bool.or_eq_false_iff,
      decide_eq_false_iff_not] at hk
    simp only [lookupHour, if_neg hk.1]
    exact ih hk.2

lemma lookupHour_appendToHour_self (hours : HourBuckets) (h : Nat)
    (gv : GameVis) (hk : hasHourKey hours h = true) :
    lookupHour (appendToHour hours h gv) h = lookupHour hours h ++ [gv] := by
  induction hours with
  | nil => simp [hasHourKey] at hk
  | cons e rest ih =>
    obtain ⟨k, l⟩ := e
    by_cases hkh : k = h
    · simp [appendToHour, lookupHour, if_pos hkh]
    · simp only [hasHourKey, Bool.or_eq_true, decide_eq_true_eq] at hk
      rcases hk with hk | hk
      · exact absurd hk hkh
      · simp only [appendToHour, if_neg hkh, lookupHour]
        exact ih hk

lemma lookupHour_appendToHour_ne (hours : HourBuckets) (h h' : Nat)
    (gv : GameVis) (hne : h' ≠ h) :
    lookupHour (appendToHour hours h gv) h' = lookupHour hours h' := by
  induction hours with
  | nil => simp [appendToHour]
  | cons e rest ih =>
    obtain ⟨k, l⟩ := e
    by_cases hkh : k = h
    · have hne' : ¬ k = h' := fun hh => hne (hh ▸ hkh ▸ rfl)
      simp [appendToHour, if_pos hkh, lookupHour, if_neg hne']
    · by_cases hk' : k = h'
      · simp [appendToHour, if_neg hkh, lookupHour, if_pos hk']
      · simp only [appendToHour, if_neg hkh, lookupHour, if_neg hk']
        exact ih

lemma lookupHour_append_single_self (hours : HourBuckets) (h : Nat)
    (gv : GameVis) (hk : hasHourKey hours h = false) :
    lookupHour (hours ++ [(h, [gv])]) h = [gv] := by
  induction hours with
  | nil => simp [lookupHour]
  | cons e rest ih =>
    obtain ⟨k, l⟩ := e
    simp only [hasHourKey, Bool.or_eq_false_iff,
      decide_eq_false_iff_not] at hk
    simp only [List.cons_append, lookupHour, if_neg hk.1]
    exact ih hk.2

lemma lookupHour_append_single_ne (hours : HourBuckets) (h h' : Nat)
    (gv : GameVis) (hne : h' ≠ h) :
    lookupHour (hours ++ [(h, [gv])]) h' = lookupHour hours h' := by
  induction hours with
  | nil => simp [lookupHour, hne.symm]
  | cons e rest ih =>
    obtain ⟨k, l⟩ := e
    by_cases hk' : k = h'
    · simp [lookupHour, if_pos hk']
    · simp only [List.cons_append, lookupHour, if_neg hk']
      exact ih

lemma hourJoin_appendToHour (hours : HourBuckets) (h : Nat) (gv : GameVis)
    (hk : hasHourKey hours h = true) :
    List.Perm (hourJoin (appendToHour hours h gv)) (gv :: hourJoin hours) := by
  induction hours with
  | nil => simp [hasHourKey] at hk
  | cons e rest ih =>
    obtain ⟨k, l⟩ := e
    by_cases hkh : k = h
    · simp only [appendToHour, if_pos hkh, hourJoin, List.map_cons,
        List.flatten_cons]
      have he : (l ++ [gv]) ++ (rest.map Prod.snd).flatten =
          l ++ gv :: (rest.map Prod.snd).flatten := by simp
      rw [he]
      exact List.perm_middle
    · simp only [hasHourKey, Bool.or_eq_true, decide_eq_true_eq] at hk
      rcases hk with hk | hk
      · exact absurd hk hkh
      · simp only [appendToHour, if_neg hkh, hourJoin, List.map_cons,
          List.flatten_cons]
        exact ((ih hk).append_left l).trans List.perm_middle

lemma hourJoin_append_single (hours : HourBuckets) (h : Nat) (gv : GameVis) :
    hourJoin (hours ++ [(h, [gv])]) = hourJoin hours ++ [gv] := by
  simp [hourJoin]

/-! ### Helper lemmas about the day buckets and the scan -/

lemma allGames_cons (b : DailySchedule) (rest : List DailySchedule) :
    allGames (b :: rest) = hourJoin b.gamesByHourOfDay ++ allGames rest := by
  simp [allGames]

lemma allGames_insertGame (bs : List DailySchedule) (d h t : Nat)
    (gv : GameVis) :
    List.Perm (allGames (insertGame bs d h t gv)) (gv :: allGames bs) := by
  induction bs with
  | nil =>
    simp only [insertGame, allGames, hourJoin, List.map_cons, List.map_nil,
      List.flatten_cons, List.flatten_nil]
    exact List.Perm.refl _
  | cons b rest ih =>
    by_cases hd : b.dayOfMonth = d
    · by_cases hk : hasHourKey b.gamesByHourOfDay h
      · simp only [insertGame, if_pos hd, if_pos hk, allGames_cons]
        exact (hourJoin_appendToHour _ _ _ hk).append_right _
      · simp only [insertGame, if_pos hd, if_neg hk, allGames_cons,
          hourJoin_append_single]
        have he : (hourJoin b.gamesByHourOfDay ++ [gv]) ++ allGames rest =
            hourJoin b.gamesByHourOfDay ++ gv :: allGames rest := by simp
        rw [he]
        exact List.perm_middle
    · simp only [insertGame, if_neg hd, allGames_cons]
      exact (ih.append_left _).trans List.perm_middle

lemma processGame_gamesByDay (sel : Nat) (st : ScanState) (g : Game) :
    (processGame sel st g).gamesByDay =
      insertGame st.gamesByDay
        (civilDayOfMonth ((advanceClock sel st.currGameDate
          (st.prevGame.map fun p => p.game.day) st.postseasonHasStarted
          st.postseasonRound g).1 / 24))
        ((advanceClock sel st.currGameDate
          (st.prevGame.map fun p => p.game.day) st.postseasonHasStarted
          st.postseasonRound g).1 % 24)
        ((advanceClock sel st.currGameDate
          (st.prevGame.map fun p => p.game.day) st.postseasonHasStarted
          st.postseasonRound g).1)
        { game := g,
          visibleOnSite := st.previousGameHasStarted || g.gameStart } := rfl

lemma processGame_previousGameHasStarted (sel : Nat) (st : ScanState)
    (g : Game) :
    (processGame sel st g).previousGameHasStarted = g.gameStart := rfl

lemma allGames_foldl (sel : Nat) (gs : List Game) (st : ScanState) :
    List.Perm (allGames ((gs.foldl (processGame sel) st).gamesByDay))
      (allGames st.gamesByDay ++
        visAnnotate st.previousGameHasStarted gs) := by
  induction gs generalizing st with
  | nil =>
    simp only [List.foldl_nil, visAnnotate, List.append_nil]
    exact List.Perm.refl _
  | cons g rest ih =>
    simp only [List.foldl_cons]
    refine (ih (processGame sel st g)).trans ?_
    rw [processGame_gamesByDay, processGame_previousGameHasStarted]
    refine ((allGames_insertGame _ _ _ _ _).append_right _).trans ?_
    simp only [visAnnotate, List.cons_append]
    exact List.perm_middle.symm

lemma visAnnotate_length (hb : Bool) (gs : List Game) :
    (visAnnotate hb gs).length = gs.length := by
  induction gs generalizing hb with
  | nil => rfl
  | cons g rest ih => simp [visAnnotate, ih]

lemma visAnnotate_map_game (hb : Bool) (gs : List Game) :
    (visAnnotate hb gs).map GameVis.game = gs := by
  induction gs generalizing hb with
  | nil => rfl
  | cons g rest ih => simp [visAnnotate, ih]

lemma seasonScheduleByDate_allGames (sel sd : Nat)
    (schedule : List ChroniclerGame) :
    List.Perm (allGames (seasonScheduleByDate sel sd schedule))
      (visAnnotate false (schedule.map ChroniclerGame.data)) := by
  have hf : schedule.foldl (fun st cg => processGame sel st cg.data)
      (initState sd) =
      (schedule.map ChroniclerGame.data).foldl (processGame sel)
        (initState sd) := by
    rw [List.foldl_map]
  unfold seasonScheduleByDate
  rw [hf]
  simpa [initState, allGames] using
    allGames_foldl sel (schedule.map ChroniclerGame.data) (initState sd)

lemma gamesAt_insertGame_self (bs : List DailySchedule) (d h t : Nat)
    (gv : GameVis) :
    gamesAt (insertGame bs d h t gv) d h = gamesAt bs d h ++ [gv] := by
  induction bs with
  | nil => simp [insertGame, gamesAt, findBucket, lookupHour]
  | cons b rest ih =>
    by_cases hd : b.dayOfMonth = d
    · by_cases hk : hasHourKey b.gamesByHourOfDay h
      · simp only [insertGame, if_pos hd, if_pos hk, gamesAt, findBucket]
        exact lookupHour_appendToHour_self _ _ _ hk
      · simp only [insertGame, if_pos hd, if_neg hk, gamesAt, findBucket]
        rw [lookupHour_append_single_self _ _ _ (by simpa using hk),
          lookupHour_nil_of_not_hasHourKey _ _ (by simpa using hk)]
        rfl
    · simp only [insertGame, if_neg hd, gamesAt, findBucket]
      exact ih

lemma findBucket_insertGame_ne (bs : List DailySchedule) (d d' h t : Nat)
    (gv : GameVis) (hne : d' ≠ d) :
    findBucket (insertGame bs d h t gv) d' = findBucket bs d' := by
  induction bs with
  | nil => simp [insertGame, findBucket, hne.symm]
  | cons b rest ih =>
    by_cases hd : b.dayOfMonth = d
    · have hbne : ¬ b.dayOfMonth = d' := fun hh => hne (hh ▸ hd ▸ rfl)
      by_cases hk : hasHourKey b.gamesByHourOfDay h
      · simp only [insertGame, if_pos hd, if_pos hk, findBucket]
        rw [if_neg hbne, if_neg hbne]
      · simp only [insertGame, if_pos hd, if_neg hk, findBucket]
        rw [if_neg hbne, if_neg hbne]
    · simp only [insertGame, if_neg hd, findBucket]
      by_cases hb' : b.dayOfMonth = d'
      · rw [if_pos hb', if_pos hb']
      · rw [if_neg hb', if_neg hb']
        exact ih

lemma gamesAt_insertGame_ne_hour (bs : List DailySchedule) (d h h' t : Nat)
    (gv : GameVis) (hne : h' ≠ h) :
    gamesAt (insertGame bs d h t gv) d h' = gamesAt bs d h' := by
  induction bs with
  | nil => simp [insertGame, gamesAt, findBucket, lookupHour, hne.symm]
  | cons b rest ih =>
    by_cases hd : b.dayOfMonth = d
    · by_cases hk : hasHourKey b.gamesByHourOfDay h
      · simp only [insertGame, if_pos hd, if_pos hk, gamesAt, findBucket]
        exact lookupHour_appendToHour_ne _ _ _ _ hne
      · simp only [insertGame, if_pos hd, if_neg hk, gamesAt, findBucket]
        exact lookupHour_append_single_ne _ _ _ _ hne
    · simp only [insertGame, if_neg hd, gamesAt, findBucket]
      exact ih

lemma totalGames_insertGame (bs : List DailySchedule) (d h t : Nat)
    (gv : GameVis) :
    totalGames (insertGame bs d h t gv) = totalGames bs + 1 := by
  have := (allGames_insertGame bs d h t gv).length_eq
  simpa [totalGames, List.length_cons] using this

lemma map_dayOfMonth_insertGame_mem (bs : List DailySchedule) (d h t : Nat)
    (gv : GameVis) (hd : d ∈ bs.map DailySchedule.dayOfMonth) :
    (insertGame bs d h t gv).map DailySchedule.dayOfMonth =
      bs.map DailySchedule.dayOfMonth := by
  induction bs with
  | nil => simp at hd
  | cons b rest ih =>
    by_cases hb : b.dayOfMonth = d
    · by_cases hk : hasHourKey b.gamesByHourOfDay h
      · simp [insertGame, if_pos hb, if_pos hk]
      · simp [insertGame, if_pos hb, if_neg hk]
    · simp only [List.map_cons, List.mem_cons] at hd
      rcases hd with hd | hd
      · exact absurd hd.symm hb
      · simp only [insertGame, if_neg hb, List.map_cons]
        rw [ih hd]

lemma map_dayOfMonth_insertGame_not_mem (bs : List DailySchedule)
    (d h t : Nat) (gv : GameVis)
    (hd : d ∉ bs.map DailySchedule.dayOfMonth) :
    (insertGame bs d h t gv).map DailySchedule.dayOfMonth =
      bs.map DailySchedule.dayOfMonth ++ [d] := by
  induction bs with
  | nil => simp [insertGame]
  | cons b rest ih =>
    simp only [List.map_cons, List.mem_cons] at hd
    push_neg at hd
    have hb : ¬ b.dayOfMonth = d := fun hh => hd.1 hh.symm
    simp only [insertGame, if_neg hb, List.map_cons, List.cons_append]
    rw [ih hd.2]

lemma pairwise_insertGame (bs : List DailySchedule) (d h t : Nat)
    (gv : GameVis)
    (hp : (bs.map DailySchedule.dayOfMonth).Pairwise (· ≠ ·)) :
    ((insertGame bs d h t gv).map DailySchedule.dayOfMonth).Pairwise
      (· ≠ ·) := by
  by_cases hd : d ∈ bs.map DailySchedule.dayOfMonth
  · rw [map_dayOfMonth_insertGame_mem _ _ _ _ _ hd]
    exact hp
  · rw [map_dayOfMonth_insertGame_not_mem _ _ _ _ _ hd]
    rw [List.pairwise_append]
    refine ⟨hp, List.pairwise_singleton _ _, ?_⟩
    intro a ha b hb
    simp only [List.mem_singleton] at hb
    subst hb
    exact fun he => hd (he ▸ ha)

lemma pairwise_foldl (sel : Nat) (gs : List Game) (st : ScanState)
    (hp : (st.gamesByDay.map DailySchedule.dayOfMonth).Pairwise (· ≠ ·)) :
    (((gs.foldl (processGame sel) st).gamesByDay).map
      DailySchedule.dayOfMonth).Pairwise (· ≠ ·) := by
  induction gs generalizing st with
  | nil => exact hp
  | cons g rest ih =>
    simp only [List.foldl_cons]
    refine ih (processGame sel st g) ?_
    rw [processGame_gamesByDay]
    exact pairwise_insertGame _ _ _ _ _ hp

/-! ### Claim theorems -/

lemma seasonScheduleByDate_eq_foldl (sel sd : Nat)
    (schedule : List ChroniclerGame) :
    seasonScheduleByDate sel sd schedule =
      ((schedule.map ChroniclerGame.data).foldl (processGame sel)
        (initState sd)).gamesByDay := by
  unfold seasonScheduleByDate
  rw [List.foldl_map]

lemma visAnnotate_getElem_succ (hb : Bool) (pre : List Game) (p g : Game)
    (suf : List Game) :
    (visAnnotate hb (pre ++ p :: g :: suf))[pre.length + 1]? =
      some { game := g, visibleOnSite := p.gameStart || g.gameStart } := by
  induction pre generalizing hb with
  | nil => simp [visAnnotate]
  | cons q rest ih =>
    simp only [List.cons_append, visAnnotate, List.length_cons,
      List.getElem?_cons_succ]
    exact ih q.gameStart

/-- C1 -/
theorem c1_regular_season_hour_advance (selectedSeason t : Nat)
    (prevDay : Option Nat) (started : Bool) (round : Nat) (game : Game) :
    (prevDay ≠ some game.day → 0 < game.day → game.day < 99 →
      ¬(11 ≤ selectedSeason ∧ (game.day = 27 ∨ game.day = 72)) →
      (advanceClock selectedSeason t prevDay started round game).1 = t + 1)
    ∧ (prevDay ≠ some game.day → 0 < game.day → game.day < 99 →
      11 ≤ selectedSeason → (game.day = 27 ∨ game.day = 72) →
      (advanceClock selectedSeason t prevDay started round game).1 = t + 2)
    ∧ (game.day = 0 →
      (advanceClock selectedSeason t prevDay started round game).1 = t)
    ∧ (prevDay = some game.day →
      (advanceClock selectedSeason t prevDay started round game).1 = t) := by
  refine ⟨?_, ?_, ?_, ?_⟩
  · intro h1 h2 h3 h4
    simp only [advanceClock]
    split_ifs <;> first | rfl | tauto
  · intro h1 h2 h3 h4 h5
    simp only [advanceClock]
    split_ifs <;> first | rfl | tauto
  · intro h0
    simp only [advanceClock, h0]
    split_ifs <;> first | rfl | tauto
  · intro hsame
    simp only [advanceClock, hsame]
    split_ifs <;> first | rfl | tauto

/-- C1 witness -/
theorem c1_regular_season_hour_advance_witness :
    (advanceClock 11 500 (some 26) false 0 { exGame12 with day := 27 }).1 =
      500 + 2 :=
  (c1_regular_season_hour_advance 11 500 (some 26) false 0
    { exGame12 with day := 27 }).2.1 (by decide) (by decide) (by decide)
    (by decide) (Or.inl rfl)

/-- C2 counterexample -/
theorem c2_range_only_counterexample :
    exGame12.day = exGame13.day ∧
    exGame12.seriesIndex = exGame13.seriesIndex ∧
    (exGame12.season < 8 ↔ exGame13.season < 8) ∧
    (8 ≤ exGame12.season ↔ 8 ≤ exGame13.season) ∧
    (11 ≤ exGame12.season ↔ 11 ≤ exGame13.season) ∧
    (advanceClock 12 100 (some 104) true 2 exGame12).1 ≠
      (advanceClock 12 100 (some 104) true 2 exGame13).1 := by
  decide

/-- C2 amended -/
theorem c2_advance_depends_on_ranges_and_12 (sel t : Nat)
    (prevDay : Option Nat) (started : Bool) (round : Nat) (g1 g2 : Game)
    (hday : g1.day = g2.day) (hsi : g1.seriesIndex = g2.seriesIndex)
    (h8 : g1.season < 8 ↔ g2.season < 8)
    (h8' : 8 ≤ g1.season ↔ 8 ≤ g2.season)
    (h11 : 11 ≤ g1.season ↔ 11 ≤ g2.season)
    (h12 : g1.season = 12 ↔ g2.season = 12) :
    advanceClock sel t prevDay started round g1 =
      advanceClock sel t prevDay started round g2 := by
  simp only [advanceClock, hday, hsi]
  split_ifs <;> first | rfl | omega

/-- C2 amended witness -/
theorem c2_advance_depends_on_ranges_and_12_witness :
    advanceClock 3 100 (some 104) true 2 exGame13 =
      advanceClock 3 100 (some 104) true 2 { exGame13 with season := 14 } :=
  c2_advance_depends_on_ranges_and_12 3 100 (some 104) true 2 exGame13
    { exGame13 with season := 14 } rfl rfl (by decide) (by decide)
    (by decide) (by decide)

/-- C3 -/
theorem c3_postseason_start_times (sel t : Nat)
    (prevDay : Option Nat) (round : Nat) (game : Game) :
    (prevDay ≠ some game.day → 99 ≤ game.day → game.season < 8 →
      (advanceClock sel t prevDay false round game).1 / 24 = t / 24 + 1 ∧
        (advanceClock sel t prevDay false round game).1 % 24 = 13)
    ∧ (prevDay ≠ some game.day → 99 ≤ game.day → game.season < 8 →
      (advanceClock sel t prevDay true round game).1 = t + 1)
    ∧ (prevDay ≠ some game.day → 99 ≤ game.day → 8 ≤ game.season →
      (advanceClock sel t prevDay false round game).1 =
        t + 2 + (game.day - 99)) := by
  refine ⟨?_, ?_, ?_⟩
  · intro h1 h2 h3
    simp only [advanceClock]
    split_ifs <;> first | constructor <;> omega | tauto
  · intro h1 h2 h3
    simp only [advanceClock]
    split_ifs <;> first | rfl | tauto | omega
  · intro h1 h2 h3
    simp only [advanceClock]
    split_ifs <;> first | rfl | tauto | omega

/-- C3 witness -/
theorem c3_postseason_start_times_witness :
    (advanceClock 0 50 (some 98) false 0
      { exGame12 with day := 101, season := 9 }).1 = 50 + 2 + 2 :=
  (c3_postseason_start_times 0 50 (some 98) 0
    { exGame12 with day := 101, season := 9 }).2.2 (by decide) (by decide)
    (by decide)

end BlaseballRef
namespace BlaseballRef

/-- C4 -/
theorem c4_bucket_placement (bs : List DailySchedule) (d h t : Nat)
    (gv : GameVis) :
    totalGames (insertGame bs d h t gv) = totalGames bs + 1
    ∧ gamesAt (insertGame bs d h t gv) d h = gamesAt bs d h ++ [gv]
    ∧ (∀ d' h' : Nat, d' ≠ d ∨ h' ≠ h →
        gamesAt (insertGame bs d h t gv) d' h' = gamesAt bs d' h')
    ∧ (∀ (sel : Nat) (st : ScanState) (g : Game),
        (processGame sel st g).gamesByDay =
          insertGame st.gamesByDay
            (civilDayOfMonth ((processGame sel st g).currGameDate / 24))
            ((processGame sel st g).currGameDate % 24)
            ((processGame sel st g).currGameDate)
            { game := g,
              visibleOnSite := st.previousGameHasStarted || g.gameStart })
    ∧ (∀ (sel sd : Nat) (schedule : List ChroniclerGame),
        totalGames (seasonScheduleByDate sel sd schedule) =
          schedule.length) := by
  refine ⟨totalGames_insertGame bs d h t gv, gamesAt_insertGame_self bs d h t gv,
    ?_, fun sel st g => rfl, ?_⟩
  · intro d' h' hne
    rcases hne with hne | hne
    · simp only [gamesAt, findBucket_insertGame_ne bs d d' h t gv hne]
    · by_cases hd' : d' = d
      · subst hd'
        exact gamesAt_insertGame_ne_hour bs d' h h' t gv hne
      · simp only [gamesAt, findBucket_insertGame_ne bs d d' h t gv hd']
  · intro sel sd schedule
    have := (seasonScheduleByDate_allGames sel sd schedule).length_eq
    simpa [totalGames, visAnnotate_length] using this

/-- C4 witness -/
theorem c4_bucket_placement_witness :
    gamesAt (insertGame [] 5 7 9 { game := exGame12, visibleOnSite := true })
        6 7 =
      gamesAt ([] : List DailySchedule) 6 7 :=
  (c4_bucket_placement [] 5 7 9
    { game := exGame12, visibleOnSite := true }).2.2.1 6 7
    (Or.inl (by decide))

/-- C5 -/
theorem c5_missing_inputs_loading (v : Bool)
    (schedule : Option (List ChroniclerGame)) (sel : Option Nat)
    (starts : Option (Nat → Nat)) (team : Option Team)
    (teams : Option (List Team)) :
    (v = true ∨ schedule = none ∨ sel = none ∨ starts = none →
      seasonScheduleByDateMemo v schedule sel starts = none ∧
        teamScheduleRender v schedule sel starts team teams =
          ScheduleRender.loadingSkeleton)
    ∧ (team = none ∨ teams = none →
      teamScheduleRender v schedule sel starts team teams =
        ScheduleRender.loadingSkeleton) := by
  constructor
  · intro hmiss
    have hm : seasonScheduleByDateMemo v schedule sel starts = none := by
      rcases hmiss with h | h | h | h
      · simp [seasonScheduleByDateMemo, h]
      · subst h
        cases v <;> simp [seasonScheduleByDateMemo]
      · subst h
        cases v <;> cases schedule <;> simp [seasonScheduleByDateMemo]
      · subst h
        cases v <;> cases schedule <;> cases sel <;>
          simp [seasonScheduleByDateMemo]
    refine ⟨hm, ?_⟩
    unfold teamScheduleRender
    rw [hm]
    cases v <;> simp
  · intro hmiss
    unfold teamScheduleRender
    cases v with
    | true => simp
    | false =>
      rcases hmiss with h | h <;> subst h <;>
        cases hmem : seasonScheduleByDateMemo false schedule sel starts <;>
          simp

/-- C5 witness -/
theorem c5_missing_inputs_loading_witness :
    (seasonScheduleByDateMemo false none (some 3) (some fun _ => 0) = none ∧
      teamScheduleRender false none (some 3) (some fun _ => 0) none
        (some []) = ScheduleRender.loadingSkeleton) ∧
    teamScheduleRender false none (some 3) (some fun _ => 0) none (some []) =
      ScheduleRender.loadingSkeleton :=
  ⟨(c5_missing_inputs_loading false none (some 3) (some fun _ => 0) none
      (some [])).1 (Or.inr (Or.inl rfl)),
    (c5_missing_inputs_loading false none (some 3) (some fun _ => 0) none
      (some [])).2 (Or.inl rfl)⟩

/-- C6 -/
theorem c6_search_render_precedence (isError isLoading : Bool)
    (r : SearchResultsData) :
    (isError = true →
      searchResultsRender isError isLoading r = SearchRender.pleaseRefresh)
    ∧ (isError = false → isLoading = true →
      searchResultsRender isError isLoading r = SearchRender.loadingMessage)
    ∧ (isError = false → isLoading = false → r.keys.length = 0 →
      searchResultsRender isError isLoading r = SearchRender.noResultsFound)
    ∧ teamBattingStatTableBody (some []) = StatTableBody.noResultsMessage := by
  refine ⟨?_, ?_, ?_, rfl⟩
  · intro he
    simp [searchResultsRender, he]
  · intro he hl
    simp [searchResultsRender, he, hl]
  · intro he hl hk
    simp [searchResultsRender, he, hl, hk]

/-- C6 witness -/
theorem c6_search_render_precedence_witness :
    searchResultsRender true false { players := none, teams := none } =
      SearchRender.pleaseRefresh ∧
    searchResultsRender false true { players := none, teams := none } =
      SearchRender.loadingMessage ∧
    searchResultsRender false false { players := none, teams := none } =
      SearchRender.noResultsFound :=
  ⟨(c6_search_render_precedence true false
      { players := none, teams := none }).1 rfl,
    (c6_search_render_precedence false true
      { players := none, teams := none }).2.1 rfl rfl,
    (c6_search_render_precedence false false
      { players := none, teams := none }).2.2.1 rfl rfl (by decide)⟩

/-- C7 -/
theorem c7_static_paths_pass_slug_through (teams : List Team) :
    (getStaticPathsTeamSchedule teams).length = teams.length
    ∧ (∀ i : Nat, (getStaticPathsTeamSchedule teams)[i]? =
        (teams[i]?).map fun team => "/teams/" ++ team.url_slug ++ "/schedule")
    ∧ (∀ teamSlug : String,
        scheduleFetchPath teamSlug =
          "/teams/" ++ teamSlug ++ "/schedule.json" ∧
        teamFetchPath teamSlug = "/teams/" ++ teamSlug) :=
  ⟨by simp [getStaticPathsTeamSchedule],
    fun i => by simp [getStaticPathsTeamSchedule],
    fun teamSlug => ⟨rfl, rfl⟩⟩

/-- C8 -/
theorem c8_visible_on_site_flag :
    (∀ (sel sd : Nat) (schedule : List ChroniclerGame),
      List.Perm (allGames (seasonScheduleByDate sel sd schedule))
        (visAnnotate false (schedule.map ChroniclerGame.data)))
    ∧ (∀ (g : Game) (gs : List Game),
      (visAnnotate false (g :: gs)).head? =
        some { game := g, visibleOnSite := g.gameStart })
    ∧ (∀ (hb : Bool) (pre : List Game) (p g : Game) (suf : List Game),
      (visAnnotate hb (pre ++ p :: g :: suf))[pre.length + 1]? =
        some { game := g, visibleOnSite := p.gameStart || g.gameStart }) :=
  ⟨seasonScheduleByDate_allGames,
    fun g gs => by simp [visAnnotate],
    visAnnotate_getElem_succ⟩

/-- C9 -/
theorem c9_no_input_mutation (sel sd : Nat)
    (schedule : List ChroniclerGame) :
    List.Perm
      ((allGames (seasonScheduleByDate sel sd schedule)).map GameVis.game)
      (schedule.map ChroniclerGame.data)
    ∧ (∀ gv : GameVis, gv ∈ allGames (seasonScheduleByDate sel sd schedule) →
        ∃ cg, cg ∈ schedule ∧ gv.game = cg.data) := by
  have hperm := seasonScheduleByDate_allGames sel sd schedule
  constructor
  · have := hperm.map GameVis.game
    rwa [visAnnotate_map_game] at this
  · intro gv hgv
    have hmem : gv ∈ visAnnotate false (schedule.map ChroniclerGame.data) :=
      hperm.mem_iff.mp hgv
    have : gv.game ∈
        (visAnnotate false (schedule.map ChroniclerGame.data)).map
          GameVis.game :=
      List.mem_map_of_mem GameVis.game hmem
    rw [visAnnotate_map_game] at this
    obtain ⟨cg, hcg, heq⟩ := List.mem_map.mp this
    exact ⟨cg, hcg, heq.symm⟩

/-- C9 witness -/
theorem c9_no_input_mutation_witness :
    ∃ cg, cg ∈ [ChroniclerGame.mk exGame12] ∧
      (GameVis.mk exGame12 true).game = cg.data :=
  (c9_no_input_mutation 0 0 [ChroniclerGame.mk exGame12]).2
    (GameVis.mk exGame12 true) (by decide)

/-- C10 -/
theorem c10_day_of_month_unique :
    (∀ (sel sd : Nat) (schedule : List ChroniclerGame),
      (seasonScheduleByDate sel sd schedule).Pairwise
        fun a b => a.dayOfMonth ≠ b.dayOfMonth)
    ∧ (∀ (bs : List DailySchedule) (d h t : Nat) (gv : GameVis),
      d ∈ bs.map DailySchedule.dayOfMonth →
        (insertGame bs d h t gv).map DailySchedule.dayOfMonth =
          bs.map DailySchedule.dayOfMonth) := by
  constructor
  · intro sel sd schedule
    rw [seasonScheduleByDate_eq_foldl]
    have := pairwise_foldl sel (schedule.map ChroniclerGame.data)
      (initState sd) (by simp [initState])
    exact (List.pairwise_map.mp this)
  · intro bs d h t gv hd
    exact map_dayOfMonth_insertGame_mem bs d h t gv hd

/-- C10 witness -/
theorem c10_day_of_month_unique_witness :
    (insertGame [DailySchedule.mk 5 0 [(3, [GameVis.mk exGame12 true])]]
        5 7 9 (GameVis.mk exGame13 false)).map DailySchedule.dayOfMonth =
      [DailySchedule.mk 5 0 [(3, [GameVis.mk exGame12 true])]].map
        DailySchedule.dayOfMonth :=
  (c10_day_of_month_unique).2
    [DailySchedule.mk 5 0 [(3, [GameVis.mk exGame12 true])]] 5 7 9
    (GameVis.mk exGame13 false) (by decide)

end BlaseballRef
